import Mathlib

/-!
Verification of the table-of-contents normalizer of
`src/components/EnhancedTableOfContents.tsx`.

The TypeScript functions are shallowly embedded over a JSON-like value type
`JSValue` that models the dynamically typed index documents the component
receives.  Property access, truthiness, `||`, strict equality against
literals, `Array.isArray`, string methods and template literals are modelled
by explicit helper functions; places where the JavaScript code would raise a
`TypeError` (property access on `null`/`undefined`, calling a string method
on a non-string, `forEach` on a non-array) are modelled with
`Except JSErr`.  The `console.log` calls of the source are guarded by
`process.env.NODE_ENV !== 'production'`; the embedding models the production
behaviour, where they are skipped.
-/

/-- A JavaScript runtime value, as far as the component inspects them. -/
inductive JSValue where
  | undef
  | null
  | bool (b : Bool)
  | num (n : Int)
  | str (s : String)
  | arr (elems : List JSValue)
  | obj (fields : List (String × JSValue))

/-- Field lookup in an object literal (first binding wins; the embedding
never builds objects with duplicate keys). Missing keys give `undefined`. -/
def lookupField : List (String × JSValue) → String → JSValue
  | [], _ => .undef
  | (k, v) :: rest, key => if k = key then v else lookupField rest key

/-- Decimal digit characters of a natural number, fuel-indexed so that the
definition is structurally recursive (and hence computes by `rfl`). -/
def decD (fuel n : Nat) : List Char :=
  match fuel with
  | 0 => []
  | f + 1 =>
    if n < 10 then [Char.ofNat (48 + n)]
    else decD f (n / 10) ++ [Char.ofNat (48 + n % 10)]

/-- Decimal digit characters of a natural number. -/
def decDigits (n : Nat) : List Char := decD (n + 1) n

/-- Rendering of a natural number the way a JavaScript template literal
renders a (non-negative integral) number: its decimal digits. -/
def natToString (n : Nat) : String := ⟨decDigits n⟩

/-- Rendering of an integer the way JavaScript renders an integral number. -/
def intToString (n : Int) : String :=
  if n < 0 then "-" ++ natToString n.natAbs else natToString n.toNat

/-- String conversion of an atomic value, as JavaScript string coercion does
(`String(v)`).  Nested arrays and objects inside an array are cut off
(rendered via their own coercion only one level deep). -/
def jsAtomString : JSValue → String
  | .undef => "undefined"
  | .null => "null"
  | .bool true => "true"
  | .bool false => "false"
  | .num n => intToString n
  | .str s => s
  | .arr _ => ""
  | .obj _ => "[object Object]"

/-- JavaScript string coercion, one level deep for arrays
(`[a, b].toString()` is the comma-joined element coercion). -/
def jsToString : JSValue → String
  | .arr xs => String.intercalate "," (xs.map jsAtomString)
  | v => jsAtomString v

/-- JavaScript truthiness. -/
def truthy : JSValue → Bool
  | .undef => false
  | .null => false
  | .bool b => b
  | .num n => n != 0
  | .str s => s != ""
  | .arr _ => true
  | .obj _ => true

/-- `a || b`. -/
def jsOr (a b : JSValue) : JSValue := if truthy a then a else b

/-- `Array.isArray`. -/
def isArray : JSValue → Bool
  | .arr _ => true
  | _ => false

/-- Property access on a value known not to be `null`/`undefined`.
Objects look the key up; `length` works on arrays and strings; other
receivers give `undefined`. -/
def getProp : JSValue → String → JSValue
  | .obj fs, k => lookupField fs k
  | .arr xs, k => if k = "length" then .num xs.length else .undef
  | .str s, k => if k = "length" then .num s.length else .undef
  | _, _ => (.undef)

/-- Optional-chained property access `v?.k`. -/
def optGet (v : JSValue) (k : String) : JSValue :=
  match v with
  | .undef => .undef
  | .null => .undef
  | w => getProp w k

/-- Strict equality `v === "s"` against a string literal. -/
def strictEqStr (v : JSValue) (s : String) : Bool :=
  match v with
  | .str t => t = s
  | _ => false

/-- Strict equality `v === n` against a number literal. -/
def strictEqNum (v : JSValue) (k : Int) : Bool :=
  match v with
  | .num n => n = k
  | _ => false

/-- The one kind of error the embedded code can raise: a `TypeError` from
accessing a member of `null`/`undefined` or calling a missing method. -/
inductive JSErr where
  | typeError
deriving DecidableEq

/-- Plain (non-optional) property access `v.k`: throws on `null`/`undefined`. -/
def tGet (v : JSValue) (k : String) : Except JSErr JSValue :=
  match v with
  | .undef => .error .typeError
  | .null => .error .typeError
  | w => .ok (getProp w k)

/-- `v.forEach(...)` requires an actual array. -/
def asArray : JSValue → Except JSErr (List JSValue)
  | .arr xs => .ok xs
  | _ => .error .typeError

/-- Does `hay` start with `needle`? -/
def chStarts : List Char → List Char → Bool
  | _, [] => true
  | [], _ :: _ => false
  | c :: cs, d :: ds => c = d && chStarts cs ds

/-- Is `needle` a contiguous substring of `hay`? -/
def chInfix (hay needle : List Char) : Bool :=
  chStarts hay needle ||
    match hay with
    | [] => false
    | _ :: t => chInfix t needle

/-- `t.includes(s)` for strings. -/
def strIncludes (t s : String) : Bool := chInfix t.data s.data

/-- `v.includes(s)`: substring test on strings, strict-equality membership
test on arrays (`Array.prototype.includes`), `TypeError` otherwise. -/
def jsIncludes (v : JSValue) (s : String) : Except JSErr Bool :=
  match v with
  | .str t => .ok (strIncludes t s)
  | .arr xs => .ok (xs.any (fun x => strictEqStr x s))
  | _ => .error .typeError

/-- Optional call `v?.includes(s)`: `undefined` (falsy) when `v` is
`null`/`undefined`. -/
def optIncludes (v : JSValue) (s : String) : Except JSErr Bool :=
  match v with
  | .undef => .ok false
  | .null => .ok false
  | w => jsIncludes w s

/-- Short-circuiting `||` over possibly-throwing boolean computations. -/
def orE (a b : Except JSErr Bool) : Except JSErr Bool := do
  if (← a) then pure true else b

/-- Indexing `v[i]` with a non-negative number: array element, single
character of a string, numeric-key lookup on an object, `undefined`
otherwise. -/
def idx (v : JSValue) (i : Nat) : JSValue :=
  match v with
  | .arr xs => (xs.get? i).getD .undef
  | .str s =>
    match s.data.get? i with
    | some c => .str ⟨[c]⟩
    | none => .undef
  | .obj fs => lookupField fs (natToString i)
  | _ => (.undef)

/-- `s.replace(/\n/g, '')`: drop newline characters. -/
def stripNewlines (s : String) : String := ⟨s.data.filter (fun c => c != '\n')⟩

mutual

/-- `replace(/\s+/g, '_')` on the character list: each maximal run of
whitespace becomes a single underscore. -/
def wsRun : List Char → List Char
  | [] => []
  | c :: rest => if c.isWhitespace then '_' :: wsSkip rest else c :: wsRun rest

/-- Consume the remainder of a whitespace run. -/
def wsSkip : List Char → List Char
  | [] => []
  | c :: rest => if c.isWhitespace then wsSkip rest else c :: wsRun rest

end

/-- `s.replace(/\s+/g, '_')`. -/
def underscoreWs (s : String) : String := ⟨wsRun s.data⟩

/-- `s.trim()`: strip leading and trailing whitespace (structurally
recursive, so that it computes definitionally). -/
def jsTrim (s : String) : String :=
  ⟨((s.data.dropWhile Char.isWhitespace).reverse.dropWhile Char.isWhitespace).reverse⟩

/-- Decimal digit test. -/
def isDecDigit (c : Char) : Bool := '0' ≤ c && c ≤ '9'

/-- Value of a decimal digit character. -/
def decVal (c : Char) : Nat := c.toNat - '0'.toNat

/-- Hexadecimal digit test. -/
def isHexDigit (c : Char) : Bool :=
  isDecDigit c || ('a' ≤ c && c ≤ 'f') || ('A' ≤ c && c ≤ 'F')

/-- Value of a hexadecimal digit character. -/
def hexVal (c : Char) : Nat :=
  if isDecDigit c then decVal c
  else if 'a' ≤ c && c ≤ 'f' then c.toNat - 'a'.toNat + 10
  else c.toNat - 'A'.toNat + 10

/-- Octal digit test. -/
def isOctDigit (c : Char) : Bool := '0' ≤ c && c ≤ '7'

/-- Binary digit test. -/
def isBinDigit (c : Char) : Bool := c = '0' || c = '1'

/-- Take the longest leading run of digits of the given digit class,
returning their values and the rest of the input. -/
def takeDigitsBy (isDig : Char → Bool) (val : Char → Nat) :
    List Char → List Nat × List Char
  | [] => ([], [])
  | c :: cs =>
    if isDig c then
      let p := takeDigitsBy isDig val cs
      (val c :: p.1, p.2)
    else ([], c :: cs)

/-- Digit-list value in the given radix. -/
def radixVal (r : Nat) (ds : List Nat) : Nat := ds.foldl (fun a d => r * a + d) 0

/-- A JavaScript number as produced by `ToNumber`: `NaN`, an infinity, or
a finite value.  Finite literal values are kept exact as rationals; the
IEEE-754 rounding of written literals is not modelled. -/
inductive JSNum where
  | nan
  | posInf
  | negInf
  | fin (q : ℚ)

/-- Negate a `JSNum` when the sign is negative. -/
def applySign (neg : Bool) (n : JSNum) : JSNum :=
  if neg then
    match n with
    | .nan => .nan
    | .posInf => .negInf
    | .negInf => .posInf
    | .fin q => .fin (-q)
  else n

/-- The exponent part of a decimal literal: `e` or `E`, an optional sign
and mandatory digits.  An absent exponent part yields exponent 0; a
malformed one fails. -/
def expPart (cs : List Char) : Option (Int × List Char) :=
  match cs with
  | [] => some (0, [])
  | c :: rest =>
    if c = 'e' || c = 'E' then
      match rest with
      | '+' :: r2 =>
        match takeDigitsBy isDecDigit decVal r2 with
        | ([], _) => none
        | (ds, r3) => some ((radixVal 10 ds : Int), r3)
      | '-' :: r2 =>
        match takeDigitsBy isDecDigit decVal r2 with
        | ([], _) => none
        | (ds, r3) => some (-(radixVal 10 ds : Int), r3)
      | r2 =>
        match takeDigitsBy isDecDigit decVal r2 with
        | ([], _) => none
        | (ds, r3) => some ((radixVal 10 ds : Int), r3)
    else some (0, c :: rest)

/-- Exact value of an unsigned decimal literal with integer digits `ids`
and fraction digits `fds`. -/
def decLitVal (ids fds : List Nat) : ℚ :=
  (radixVal 10 ids : ℚ) + (radixVal 10 fds : ℚ) / ((10 : ℚ) ^ fds.length)

/-- Parse an unsigned decimal literal: digits with optional fraction and
exponent, or a leading dot with mandatory fraction digits
(`StrUnsignedDecimalLiteral`, `Infinity` aside). -/
def parseUnsignedDec (cs : List Char) : Option (ℚ × List Char) :=
  match takeDigitsBy isDecDigit decVal cs with
  | ([], rest) =>
    match rest with
    | '.' :: r2 =>
      match takeDigitsBy isDecDigit decVal r2 with
      | ([], _) => none
      | (fds, r3) =>
        match expPart r3 with
        | none => none
        | some (e, r4) => some (decLitVal [] fds * (10 : ℚ) ^ e, r4)
    | _ => none
  | (ids, rest) =>
    match rest with
    | '.' :: r2 =>
      match takeDigitsBy isDecDigit decVal r2 with
      | (fds, r3) =>
        match expPart r3 with
        | none => none
        | some (e, r4) => some (decLitVal ids fds * (10 : ℚ) ^ e, r4)
    | _ =>
      match expPart rest with
      | none => none
      | some (e, r4) => some (decLitVal ids [] * (10 : ℚ) ^ e, r4)

/-- Parse the body of a radix-prefixed integer literal (after `0x`, `0o`
or `0b`): mandatory digits consuming the whole input. -/
def parseRadixTail (r : Nat) (isDig : Char → Bool) (val : Char → Nat)
    (cs : List Char) : JSNum :=
  match takeDigitsBy isDig val cs with
  | ([], _) => .nan
  | (ds, []) => .fin (radixVal r ds : ℚ)
  | _ => .nan

/-- Parse an optionally signed decimal body: `Infinity` or an unsigned
decimal literal consuming the whole input. -/
def parseSignedDecBody (neg : Bool) (cs : List Char) : JSNum :=
  if cs = "Infinity".data then applySign neg .posInf
  else
    match parseUnsignedDec cs with
    | some (q, []) => applySign neg (.fin q)
    | _ => .nan

/-- `ToNumber` on a string (`StringNumericLiteral`): trim surrounding
whitespace, the empty remainder means 0, a `0x`, `0o` or `0b` prefix
selects an unsigned non-decimal integer, and anything else must be an
optionally signed decimal literal or `Infinity`, else `NaN`.  Whitespace
is the same ASCII class `jsTrim` uses. -/
def strToJSNum (s : String) : JSNum :=
  match (jsTrim s).data with
  | [] => .fin 0
  | cs =>
    if chStarts cs "0x".data || chStarts cs "0X".data then
      parseRadixTail 16 isHexDigit hexVal (cs.drop 2)
    else if chStarts cs "0o".data || chStarts cs "0O".data then
      parseRadixTail 8 isOctDigit decVal (cs.drop 2)
    else if chStarts cs "0b".data || chStarts cs "0B".data then
      parseRadixTail 2 isBinDigit decVal (cs.drop 2)
    else
      match cs with
      | '+' :: r => parseSignedDecBody false r
      | '-' :: r => parseSignedDecBody true r
      | r => parseSignedDecBody false r

/-- `ToNumber`: JavaScript numeric coercion.  Arrays and plain objects
convert through their string form (their `valueOf` is not a primitive, so
`ToPrimitive` falls back to `toString`), inheriting the one-level array
cut of `jsToString`. -/
def jsToNumber : JSValue → JSNum
  | .undef => .nan
  | .null => .fin 0
  | .bool b => .fin (if b then 1 else 0)
  | .num n => .fin (n : ℚ)
  | .str s => strToJSNum s
  | .arr xs => strToJSNum (jsToString (.arr xs))
  | .obj fs => strToJSNum (jsToString (.obj fs))

/-- `v >= k` with a number literal (the schema-builder depth check and the
topic-builder length check): the left operand is coerced with `ToNumber`,
so for example the string "2" does satisfy `>= 2`, and `NaN` comparisons
are false.  Numbers take the direct integer comparison. -/
def jsGE (v : JSValue) (k : Int) : Bool :=
  match v with
  | .num n => decide (k ≤ n)
  | v =>
    match jsToNumber v with
    | .nan => false
    | .posInf => true
    | .negInf => false
    | .fin q => decide ((k : ℚ) ≤ q)

/-- `v?.replace(/\n/g, '').trim()`: the whole optional chain is `undefined`
when the receiver is `null`/`undefined`; a `TypeError` when the receiver is
a non-string; the cleaned string otherwise. -/
def optCleanTitle (v : JSValue) : Except JSErr JSValue :=
  match v with
  | .undef => .ok .undef
  | .null => .ok .undef
  | .str s => .ok (.str (jsTrim (stripNewlines s)))
  | _ => .error .typeError

/-- `v.replace(/\s+/g, '_')` (non-optional): `TypeError` unless a string. -/
def jsReplaceWs : JSValue → Except JSErr String
  | .str s => .ok (underscoreWs s)
  | _ => .error .typeError

/-- The trailing run of decimal digits of a character list. -/
def trailingDigits (cs : List Char) : List Char :=
  (cs.reverse.takeWhile Char.isDigit).reverse

/-- Value of a list of decimal digit characters (`parseInt` on the digits;
the empty list gives 0). -/
def digitsVal (cs : List Char) : Nat :=
  cs.foldl (fun a c => 10 * a + (c.toNat - 48)) 0

/-- `extractChapterNumber` (source lines 71-74): the number formed by the
trailing run of decimal digits of the reference, or 0 when there is none
(the regex `/(\d+)$/` fails to match). -/
def extractChapterNumber (s : String) : Nat := digitsVal (trailingDigits s.data)

/-- `ref.match(...)` requires a string receiver at runtime. -/
def extractChapterNumberJS : JSValue → Except JSErr Nat
  | .str s => .ok (extractChapterNumber s)
  | _ => .error .typeError

/-- `refs[refs.length - 1]`.  When `length` is not a number the index is
`NaN`; the embedding cuts that corner to `undefined` (the subsequent
`.match` access then raises, as it would on virtually any actual value). -/
def lastElem (refs : JSValue) : JSValue :=
  match getProp refs "length" with
  | .num n => if 1 ≤ n then idx refs (n - 1).toNat else .undef
  | _ => (.undef)

/-- `getChapterRange` (source lines 79-90). -/
def getChapterRange (refs : JSValue) : Except JSErr String :=
  if !truthy refs then .ok ""
  else if strictEqNum (getProp refs "length") 0 then .ok ""
  else do
    let firstChapter ← extractChapterNumberJS (idx refs 0)
    let lastChapter ← extractChapterNumberJS (lastElem refs)
    if firstChapter = lastChapter then
      pure ("Chapter " ++ natToString firstChapter)
    else
      pure ("Chapters " ++ natToString firstChapter ++ "-" ++
        natToString lastChapter ++ " (" ++
        jsToString (getProp refs "length") ++ " chapters)")

/-- The `type` field of a `TOCItem` (`'chapter'` is the leaf kind). -/
inductive TOCType where
  | introduction
  | part
  | section
  | chapter
deriving DecidableEq

/-- The normalized output node (interface `TOCItem`, source lines 10-20).
The `title` and `reference` fields are declared `string` in the source
interface; the rare raw assignments of a non-string document value to them
are normalized with the JavaScript string coercion. -/
inductive TOCItem where
  | mk (id title reference : String) (level : Nat) (type : TOCType)
      (isCollapsible isExpanded : Bool) (children : List TOCItem)
      (chapterRange : Option String)

def TOCItem.id : TOCItem → String
  | .mk i _ _ _ _ _ _ _ _ => i

def TOCItem.title : TOCItem → String
  | .mk _ t _ _ _ _ _ _ _ => t

def TOCItem.reference : TOCItem → String
  | .mk _ _ r _ _ _ _ _ _ => r

def TOCItem.level : TOCItem → Nat
  | .mk _ _ _ l _ _ _ _ _ => l

def TOCItem.type : TOCItem → TOCType
  | .mk _ _ _ _ ty _ _ _ _ => ty

def TOCItem.isCollapsible : TOCItem → Bool
  | .mk _ _ _ _ _ c _ _ _ => c

def TOCItem.isExpanded : TOCItem → Bool
  | .mk _ _ _ _ _ _ e _ _ => e

def TOCItem.children : TOCItem → List TOCItem
  | .mk _ _ _ _ _ _ _ ch _ => ch

def TOCItem.chapterRange : TOCItem → Option String
  | .mk _ _ _ _ _ _ _ _ cr => cr

/-- Dash-joined decimal renderings, starting from a first index. -/
def numTailAux (n : Nat) : List Nat → List Char
  | [] => decDigits n
  | m :: ms => decDigits n ++ '-' :: numTailAux m ms

/-- Tail of an id: the dash-separated decimal renderings of the indices,
exactly what the template literals of the source produce. -/
def numTail : List Nat → List Char
  | [] => []
  | n :: ns => numTailAux n ns

/-- An id template such as `` `section-${nodeIndex}-${sectionIndex}` ``:
the family name followed by dash-separated decimal indices. -/
def mkId (fam : String) (ns : List Nat) : String := ⟨fam.data ++ '-' :: numTail ns⟩

/-- Indexed view of a list, mirroring the index argument of
`Array.prototype.forEach`. -/
def idxFrom (n : Nat) : List JSValue → List (Nat × JSValue)
  | [] => []
  | x :: xs => (n, x) :: idxFrom (n + 1) xs

/-- A `forEach` loop whose body pushes `g p` onto an accumulator list and
which propagates the first `TypeError`. -/
def forEachPush (g : Nat × JSValue → Except JSErr (List TOCItem)) :
    List (Nat × JSValue) → List TOCItem → Except JSErr (List TOCItem)
  | [], acc => .ok acc
  | p :: rest, acc =>
    match g p with
    | .error e => .error e
    | .ok its => forEachPush g rest (acc ++ its)

/-- Chapter children of a topic section: one loop iteration of source
lines 181-194 of `generateTopicBasedTOC`. -/
def topicChapter (nodeIndex sectionIndex : Nat) :
    Nat × JSValue → Except JSErr (List TOCItem) :=
  fun (i, ref) => do
    let chapterNumber ← extractChapterNumberJS ref
    pure [.mk (mkId "chapter" [nodeIndex, sectionIndex, i])
      ("Chapter " ++ natToString chapterNumber) (jsToString ref) 2 .chapter
      false false [] none]

/-- One iteration of the section loop of `generateTopicBasedTOC`
(source lines 157-199). -/
def topicSection (nodeIndex : Nat) : Nat × JSValue → Except JSErr (List TOCItem) :=
  fun (sectionIndex, sectionNode) => do
    let snt ← tGet sectionNode "nodeType"
    if strictEqStr snt "ArrayMapNode" then do
      let cleaned ← optCleanTitle (getProp sectionNode "title")
      let sectionTitle :=
        jsToString (jsOr cleaned (.str ("Section " ++ natToString (sectionIndex + 1))))
      let cr ← getChapterRange (getProp sectionNode "refs")
      let refs := getProp sectionNode "refs"
      let children ←
        if truthy refs && isArray refs then do
          let rs ← asArray refs
          forEachPush (topicChapter nodeIndex sectionIndex) (idxFrom 0 rs) []
        else pure []
      pure [.mk (mkId "section" [nodeIndex, sectionIndex]) sectionTitle
        (jsToString (jsOr (getProp sectionNode "wholeRef") (.str "")))
        1 .section true false children (some cr)]
    else pure []

/-- One iteration of the child loop of the defensive-fallback branch of
`generateTopicBasedTOC` (source lines 219-234). -/
def topicOtherChild (nodeIndex : Nat) : Nat × JSValue → Except JSErr (List TOCItem) :=
  fun (childIndex, childNode) => do
    let cnt ← tGet childNode "nodeType"
    if strictEqStr cnt "ArrayMapNode" then do
      let cleaned ← optCleanTitle (getProp childNode "title")
      let childTitle :=
        jsToString (jsOr cleaned (.str ("Subsection " ++ natToString (childIndex + 1))))
      let cr ← getChapterRange (getProp childNode "refs")
      pure [.mk (mkId "child" [nodeIndex, childIndex]) childTitle
        (jsToString (jsOr (getProp childNode "wholeRef") (.str "")))
        1 .section false false [] (some cr)]
    else pure []

/-- One iteration of the `topicNodes.forEach` loop of
`generateTopicBasedTOC` (source lines 111-239). -/
def topicProcessNode (title : JSValue) : Nat × JSValue → Except JSErr (List TOCItem) :=
  fun (nodeIndex, node) => do
    let nodeType ← tGet node "nodeType"
    let t := getProp node "title"
    if strictEqStr nodeType "ArrayMapNode" || truthy t then
      if strictEqStr t "Introduction" ||
          strictEqStr (getProp node "heTitle") "הקדמה" then
        pure [.mk (mkId "intro" [nodeIndex])
          (jsToString (jsOr t (.str "Introduction")))
          (jsToString (jsOr (getProp node "wholeRef")
            (.str (jsToString title ++ ", Introduction"))))
          0 .introduction false false [] none]
      else do
        let isPart ←
          if truthy t then
            orE (jsIncludes t "Part")
              (orE (optIncludes (getProp node "heTitle") "חלק")
                (orE (jsIncludes t "I") (jsIncludes t "II")))
          else pure false
        if isPart then do
          let nn := getProp node "nodes"
          let children ←
            if truthy nn && isArray nn then do
              let secs ← asArray nn
              forEachPush (topicSection nodeIndex) (idxFrom 0 secs) []
            else pure []
          pure [.mk (mkId "part" [nodeIndex]) (jsToString t) "" 0 .part
            true false children none]
        else
          let nn := getProp node "nodes"
          if truthy nn && isArray nn && jsGE (getProp nn "length") 1 then do
            let cs ← asArray nn
            let children ← forEachPush (topicOtherChild nodeIndex) (idxFrom 0 cs) []
            pure [.mk (mkId "other" [nodeIndex])
              (jsToString (jsOr t (.str ("Section " ++ natToString (nodeIndex + 1)))))
              (jsToString (jsOr (getProp node "wholeRef") (.str "")))
              0 .section true false children none]
          else pure []
    else pure []

/-- `generateTopicBasedTOC` (source lines 95-243). -/
def generateTopicBasedTOC (indexData : JSValue) : Except JSErr (List TOCItem) := do
  let t ← tGet indexData "title"
  let title := jsOr t (.str "")
  let a ← tGet indexData "alts"
  let tp ← tGet a "Topic"
  let ns ← tGet tp "nodes"
  let topicNodes ← asArray ns
  forEachPush (topicProcessNode title) (idxFrom 0 topicNodes) []

/-- One iteration of the subsection loop of `generateLikuteiHalakhotTOC`
(source lines 292-313).  Note that `node.title.replace` and
`subsection.title.replace` are not guarded in the source: a non-string
title raises a `TypeError` here. -/
def lhSubsection (title nodeTitle : JSValue) (nodeIndex : Nat) :
    Nat × JSValue → Except JSErr (List TOCItem) :=
  fun (subIndex, subsection) => do
    let sectionName ← jsReplaceWs nodeTitle
    let subT ← tGet subsection "title"
    let subsectionName ← jsReplaceWs subT
    let subsectionRef :=
      jsToString title ++ ",_" ++ sectionName ++ ",_" ++ subsectionName ++ ".1.1"
    pure [.mk (mkId "subsection" [nodeIndex, subIndex])
      (jsToString (jsOr subT (.str ("Subsection " ++ natToString (subIndex + 1)))))
      subsectionRef 1 .chapter false false [] none]

/-- One iteration of the node loop of `generateLikuteiHalakhotTOC`
(source lines 256-317). -/
def lhProcessNode (title : JSValue) : Nat × JSValue → Except JSErr (List TOCItem) :=
  fun (nodeIndex, node) => do
    let t ← tGet node "title"
    if strictEqStr t "Author\x27s Introduction" ||
        strictEqStr (getProp node "heTitle") "הקדמת המחבר" then
      pure [.mk (mkId "intro" [nodeIndex])
        (jsToString (jsOr t (.str "Author\x27s Introduction")))
        (jsToString title ++ ", Author\x27s Introduction")
        0 .introduction false false [] none]
    else
      let nn := getProp node "nodes"
      if truthy nn && isArray nn then do
        let subs ← asArray nn
        let children ← forEachPush (lhSubsection title t nodeIndex) (idxFrom 0 subs) []
        pure [.mk (mkId "section" [nodeIndex])
          (jsToString (jsOr t (.str ("Section " ++ natToString (nodeIndex + 1)))))
          "" 0 .section true false children
          (some (natToString subs.length ++ " subsections"))]
      else pure []

/-- `generateLikuteiHalakhotTOC` (source lines 249-321). -/
def generateLikuteiHalakhotTOC (indexData : JSValue) : Except JSErr (List TOCItem) := do
  let t ← tGet indexData "title"
  let title := jsOr t (.str "")
  let s ← tGet indexData "schema"
  let ns ← tGet s "nodes"
  let schemaNodes ← asArray ns
  forEachPush (lhProcessNode title) (idxFrom 0 schemaNodes) []

/-- One iteration of the node loop of `generateSchemaBasedTOC`
(source lines 333-399). -/
def schemaProcessNode (title : JSValue) : Nat × JSValue → Except JSErr (List TOCItem) :=
  fun (nodeIndex, node) => do
    let nt ← tGet node "nodeType"
    if strictEqStr nt "JaggedArrayNode" then
      let t := getProp node "title"
      let k := getProp node "key"
      let nodeTitle := jsOr t (jsOr k (.str ("Section " ++ natToString (nodeIndex + 1))))
      if strictEqStr nodeTitle "Introduction" || strictEqStr k "Introduction" then
        pure [.mk (mkId "intro" [nodeIndex]) (jsToString nodeTitle)
          (jsToString title ++ ", Introduction") 0 .introduction false false [] none]
      else if truthy (getProp node "default") ||
          (jsGE (getProp node "depth") 2 && truthy (getProp node "sectionNames")) then do
        let sn := getProp node "sectionNames"
        let torah ← if truthy sn then jsIncludes sn "Torah" else pure false
        let children :=
          if torah then
            (List.range' 1 286).map (fun i =>
              .mk (mkId "torah" [i]) (jsToString (idx sn 0) ++ " " ++ natToString i)
                (jsToString title ++ "." ++ natToString i) 1 .chapter false false [] none)
          else []
        let cr := if torah then some ("286 " ++ jsToString (idx sn 0) ++ "s") else none
        pure [.mk (mkId "section" [nodeIndex])
          (jsToString (jsOr nodeTitle (.str "Torah Teachings")))
          "" 0 .section true false children cr]
      else if truthy t then do
        let isP2 ← jsIncludes t "Part II"
        pure [.mk (mkId "section" [nodeIndex]) (jsToString t)
          (jsToString (jsOr (getProp node "wholeRef")
            (.str (jsToString title ++ ", " ++ jsToString t))))
          0 .section false false []
          (if isP2 then some "Torah teachings 1-125" else none)]
      else pure []
    else pure []

/-- `generateSchemaBasedTOC` (source lines 326-402). -/
def generateSchemaBasedTOC (indexData : JSValue) : Except JSErr (List TOCItem) := do
  let t ← tGet indexData "title"
  let title := jsOr t (.str "")
  let s ← tGet indexData "schema"
  let ns ← tGet s "nodes"
  let schemaNodes ← asArray ns
  forEachPush (schemaProcessNode title) (idxFrom 0 schemaNodes) []

/-- `generateSimpleTOC` (source lines 407-449). -/
def generateSimpleTOC (indexData : JSValue) : Except JSErr (List TOCItem) := do
  let t ← tGet indexData "title"
  let title := jsOr t (.str "")
  let schema ← tGet indexData "schema"
  let sn ← tGet schema "sectionNames"
  if truthy sn && truthy (idx sn 0) then
    let sectionName := idx sn 0
    pure [.mk "main-content" ("All " ++ jsToString sectionName ++ "s") "" 0 .section
      true false
      ((List.range' 1 307).map (fun i =>
        .mk (mkId "chapter" [i]) (jsToString sectionName ++ " " ++ natToString i)
          (jsToString title ++ "." ++ natToString i) 1 .chapter false false [] none))
      (some (jsToString sectionName ++ "s 1-307"))]
  else pure []

/-- Dispatch condition 1: the compound-legal allow-list (source line 466). -/
def isLikuteiTitle (indexData : JSValue) : Bool :=
  let title := jsOr (optGet indexData "title") (.str "")
  strictEqStr title "Likutei Halakhot" || strictEqStr title "Likutei_Halakhot"

/-- Dispatch condition 2: `indexData?.alts?.Topic?.nodes` is truthy
(source line 472). -/
def hasTopicNodes (indexData : JSValue) : Bool :=
  truthy (optGet (optGet (optGet indexData "alts") "Topic") "nodes")

/-- Dispatch condition 3: `indexData?.schema?.nodes` is a (truthy) array
(source line 478). -/
def hasSchemaNodesArray (indexData : JSValue) : Bool :=
  let ns := optGet (optGet indexData "schema") "nodes"
  truthy ns && isArray ns

/-- Dispatch condition 4:
`indexData?.schema?.nodeType === 'JaggedArrayNode'` (source line 484). -/
def isFlatSchema (indexData : JSValue) : Bool :=
  strictEqStr (optGet (optGet indexData "schema") "nodeType") "JaggedArrayNode"

/-- `generateHierarchicalTOC` (source lines 455-491): the normalizer. -/
def generateHierarchicalTOC (indexData : JSValue) : Except JSErr (List TOCItem) :=
  if isLikuteiTitle indexData then generateLikuteiHalakhotTOC indexData
  else if hasTopicNodes indexData then generateTopicBasedTOC indexData
  else if hasSchemaNodesArray indexData then generateSchemaBasedTOC indexData
  else if isFlatSchema indexData then generateSimpleTOC indexData
  else .ok []

/-- The action taken on user selection. -/
inductive TOCAction where
  | toggleExpand (id : String)
  | navigate (reference : String)
  | nothing
deriving DecidableEq

/-- `handleSectionPress` (source lines 737-748) as a pure decision:
expand/collapse a collapsible item, otherwise navigate when the item
reference is non-empty (truthy). -/
def resolve (item : TOCItem) : TOCAction :=
  if item.isCollapsible then .toggleExpand item.id
  else if item.reference ≠ "" then .navigate item.reference
  else .nothing

/-- The recursive per-item update of `_toggleExpansion`
(source lines 718-733): flip `isExpanded` on an id match, otherwise map
over non-empty children. -/
def toggleItem (itemId : String) : TOCItem → TOCItem
  | .mk i t r l ty c e ch cr =>
    if i = itemId then .mk i t r l ty c (!e) ch cr
    else if ch.length > 0 then
      .mk i t r l ty c e (ch.attach.map (fun x => toggleItem itemId x.1)) cr
    else .mk i t r l ty c e ch cr
decreasing_by
  have := List.sizeOf_lt_of_mem x.2
  simp only [TOCItem.mk.sizeOf_spec] at *
  omega

/-- `_toggleExpansion` applied to the whole forest (`updateItem(prevItems)`). -/
def toggleExpansion (itemId : String) (items : List TOCItem) : List TOCItem :=
  items.map (toggleItem itemId)

/-- All nodes of a forest, each subtree root before its descendants. -/
def allItems : List TOCItem → List TOCItem
  | [] => []
  | .mk i t r l ty c e ch cr :: ts =>
    .mk i t r l ty c e ch cr :: (allItems ch ++ allItems ts)

/-- The ids of all nodes of a forest. -/
def allIds (items : List TOCItem) : List String := (allItems items).map TOCItem.id

/-- Is the value `null`, `undefined`, or another primitive (not an object
or array)? -/
def isPrimitive : JSValue → Bool
  | .undef => true
  | .null => true
  | .bool _ => true
  | .num _ => true
  | .str _ => true
  | .arr _ => false
  | .obj _ => false

theorem except_bind_ok {α β : Type} {e : Except JSErr α} {f : α → Except JSErr β}
    {b : β} : (e >>= f) = .ok b ↔ ∃ a, e = .ok a ∧ f a = .ok b := by
  cases e with
  | error err => simp [Bind.bind, Except.bind]
  | ok a => simp [Bind.bind, Except.bind]

theorem forEachPush_ok_iff {g : Nat × JSValue → Except JSErr (List TOCItem)} :
    ∀ {ps : List (Nat × JSValue)} {acc res : List TOCItem},
    forEachPush g ps acc = .ok res ↔
      ∃ cs, List.Forall₂ (fun p c => g p = .ok c) ps cs ∧ res = acc ++ cs.flatten := by
  intro ps
  induction ps with
  | nil =>
    intro acc res
    constructor
    · intro h
      refine ⟨[], .nil, ?_⟩
      simpa [forEachPush] using h.symm
    · rintro ⟨cs, hcs, hres⟩
      cases hcs
      simpa [forEachPush] using hres.symm
  | cons p rest ih =>
    intro acc res
    constructor
    · intro h
      rw [forEachPush] at h
      cases hg : g p with
      | error e => rw [hg] at h; cases h
      | ok its =>
        rw [hg] at h
        obtain ⟨cs, hcs, hres⟩ := ih.mp h
        exact ⟨its :: cs, .cons hg hcs, by simp [hres]⟩
    · rintro ⟨cs, hcs, hres⟩
      cases hcs with
      | cons hg hcs' =>
        rw [forEachPush, hg]
        exact ih.mpr ⟨_, hcs', by simp [hres]⟩

theorem forall₂_mem_right {α β : Type} {R : α → β → Prop} :
    ∀ {xs : List α} {ys : List β}, List.Forall₂ R xs ys → ∀ y ∈ ys, ∃ x ∈ xs, R x y := by
  intro xs ys h
  induction h with
  | nil => intro y hy; cases hy
  | cons hR _ ih =>
    intro y hy
    rcases List.mem_cons.mp hy with h1 | h2
    · exact ⟨_, List.mem_cons_self _ _, h1 ▸ hR⟩
    · obtain ⟨x, hx, hRx⟩ := ih y h2
      exact ⟨x, List.mem_cons_of_mem _ hx, hRx⟩

theorem forall₂_map_eq {α β γ : Type} {R : α → β → Prop} (f : α → γ) (q : β → γ) :
    ∀ {xs : List α} {ys : List β}, List.Forall₂ R xs ys →
      (∀ x y, R x y → q y = f x) → ys.map q = xs.map f := by
  intro xs ys h
  induction h with
  | nil => intro; rfl
  | cons hR _ ih =>
    intro hq
    simp only [List.map_cons]
    rw [hq _ _ hR, ih hq]

theorem allItems_nil : allItems [] = [] := by rw [allItems]

theorem allItems_cons (t : TOCItem) (ts : List TOCItem) :
    allItems (t :: ts) = t :: (allItems t.children ++ allItems ts) := by
  cases t
  rw [allItems]
  rfl

theorem allItems_append : ∀ (a b : List TOCItem),
    allItems (a ++ b) = allItems a ++ allItems b := by
  intro a
  induction a with
  | nil => intro b; simp [allItems_nil]
  | cons t ts ih => intro b; simp [allItems_cons, ih]

theorem allItems_flatten (cs : List (List TOCItem)) :
    allItems cs.flatten = (cs.map allItems).flatten := by
  induction cs with
  | nil => simp [allItems_nil]
  | cons c cs' ih => simp [allItems_append, ih]

theorem mem_allItems_cons {x t : TOCItem} {ts : List TOCItem} :
    x ∈ allItems (t :: ts) ↔ x = t ∨ x ∈ allItems t.children ∨ x ∈ allItems ts := by
  simp [allItems_cons]

theorem allItems_of_leaves : ∀ {l : List TOCItem}, (∀ t ∈ l, t.children = []) →
    allItems l = l := by
  intro l
  induction l with
  | nil => intro; exact allItems_nil
  | cons t ts ih =>
    intro h
    rw [allItems_cons, h t (List.mem_cons_self _ _), allItems_nil]
    simp [ih fun x hx => h x (List.mem_cons_of_mem _ hx)]

theorem decD_agree : ∀ (n f₁ f₂ : Nat), n < f₁ → n < f₂ → decD f₁ n = decD f₂ n := by
  intro n
  induction n using Nat.strong_induction_on with
  | _ n ih =>
    intro f₁ f₂ h₁ h₂
    match f₁, f₂ with
    | g₁ + 1, g₂ + 1 =>
      rw [decD, decD]
      by_cases h : n < 10
      · simp [h]
      · simp only [h, if_false]
        have hd : n / 10 < n := Nat.div_lt_self (by omega) (by omega)
        rw [ih (n / 10) hd g₁ g₂ (by omega) (by omega)]

theorem decDigits_unfold (n : Nat) :
    decDigits n = if n < 10 then [Char.ofNat (48 + n)]
      else decDigits (n / 10) ++ [Char.ofNat (48 + n % 10)] := by
  rw [decDigits, decD]
  by_cases h : n < 10
  · simp [h]
  · simp only [h, if_false]
    have hd : n / 10 < n := Nat.div_lt_self (by omega) (by omega)
    rw [decD_agree (n / 10) n (n / 10 + 1) (by omega) (by omega), decDigits]

theorem charOfNat_toNat {n : Nat} (h : n < 55296) : (Char.ofNat n).toNat = n := by
  have hv : Nat.isValidChar n := Or.inl (by omega)
  unfold Char.ofNat
  rw [dif_pos hv]
  rfl

theorem digitsVal_append (xs : List Char) (c : Char) :
    digitsVal (xs ++ [c]) = 10 * digitsVal xs + (c.toNat - 48) := by
  simp [digitsVal, List.foldl_append]

theorem digitsVal_decDigits : ∀ n : Nat, digitsVal (decDigits n) = n := by
  intro n
  induction n using Nat.strong_induction_on with
  | _ n ih =>
    rw [decDigits_unfold]
    by_cases h : n < 10
    · simp only [h, if_true]
      show 10 * 0 + ((Char.ofNat (48 + n)).toNat - 48) = n
      rw [charOfNat_toNat (by omega)]
      omega
    · simp only [h, if_false]
      rw [digitsVal_append, ih (n / 10) (Nat.div_lt_self (by omega) (by omega)),
        charOfNat_toNat (by omega)]
      omega

theorem decDigits_inj {a b : Nat} (h : decDigits a = decDigits b) : a = b := by
  have ha := digitsVal_decDigits a
  rw [h, digitsVal_decDigits] at ha
  omega

theorem natToString_inj {a b : Nat} (h : natToString a = natToString b) : a = b := by
  unfold natToString at h
  exact decDigits_inj (congrArg String.data h)

theorem get?_last {α : Type} : ∀ (rs : List α) (r : α),
    (r :: rs).get? rs.length = some ((r :: rs).getLast (by simp)) := by
  intro rs
  induction rs with
  | nil => intro r; rfl
  | cons x t ih =>
    intro r
    rw [show (r :: x :: t).get? (x :: t).length = (x :: t).get? t.length from rfl, ih x]
    exact congrArg some (List.getLast_cons (by simp)).symm

theorem intToString_ofNat (n : Nat) : intToString n = natToString n := by
  unfold intToString
  simp

theorem jsToString_num_ofNat (n : Nat) : jsToString (.num n) = natToString n := by
  have h : ¬((n : Int) < 0) := by omega
  simp [jsToString, jsAtomString, intToString, h]

/-- Claim C7: the range label of a section is computed from its reference
list by taking the trailing run of decimal digits of each reference as its
chapter number (0 when no trailing digits exist); when the first and last
chapter numbers coincide the label is `Chapter N`, otherwise
`Chapters A-B (k chapters)` where A and B are the first and last chapter
numbers and k the list length; in particular `["X.3","X.4","X.5"]` gives
`Chapters 3-5 (3 chapters)` and `["X.9"]` gives `Chapter 9`. -/
theorem c7_chapter_range :
    (∀ (r : String) (rs : List String),
      getChapterRange (.arr ((r :: rs).map .str)) =
        .ok (if extractChapterNumber r =
              extractChapterNumber ((r :: rs).getLast (by simp))
          then "Chapter " ++ natToString (extractChapterNumber r)
          else "Chapters " ++ natToString (extractChapterNumber r) ++ "-" ++
            natToString (extractChapterNumber ((r :: rs).getLast (by simp))) ++
            " (" ++ natToString (rs.length + 1) ++ " chapters)")) ∧
    extractChapterNumber "X.12" = 12 ∧
    extractChapterNumber "X" = 0 ∧
    getChapterRange (.arr [.str "X.3", .str "X.4", .str "X.5"]) =
      .ok "Chapters 3-5 (3 chapters)" ∧
    getChapterRange (.arr [.str "X.9"]) = .ok "Chapter 9" := by
  refine ⟨?_, by decide, by decide, rfl, rfl⟩
  intro r rs
  have hlen : getProp (.arr ((r :: rs).map .str)) "length" = .num (rs.length + 1) := by
    simp [getProp]
  have h0 : idx (.arr ((r :: rs).map .str)) 0 = .str r := by
    simp [idx]
  have hlast : lastElem (.arr ((r :: rs).map .str)) =
      .str ((r :: rs).getLast (by simp)) := by
    rw [lastElem, hlen]
    dsimp only
    have h1 : (1 : Int) ≤ (rs.length : Int) + 1 := by omega
    rw [if_pos h1]
    have h2 : ((rs.length : Int) + 1 - 1).toNat = rs.length := by omega
    rw [h2, idx]
    rw [show ((r :: rs).map JSValue.str).get? rs.length =
        (((r :: rs).get? rs.length).map JSValue.str) from by rw [List.get?_map],
      get?_last]
    rfl
  rw [getChapterRange]
  rw [if_neg (by simp [truthy])]
  rw [hlen]
  rw [if_neg (by simp [strictEqNum]; omega)]
  rw [h0, hlast]
  show (if extractChapterNumber r =
        extractChapterNumber ((r :: rs).getLast (by simp)) then
      (pure ("Chapter " ++ natToString (extractChapterNumber r)) :
        Except JSErr String)
    else
      pure ("Chapters " ++ natToString (extractChapterNumber r) ++ "-" ++
        natToString (extractChapterNumber ((r :: rs).getLast (by simp))) ++
        " (" ++ jsToString (.num (rs.length + 1)) ++ " chapters)")) = _
  by_cases hc : extractChapterNumber r =
      extractChapterNumber ((r :: rs).getLast (by simp))
  · rw [if_pos hc, if_pos hc]
    rfl
  · have hjs : jsToString (JSValue.num ((rs.length : Int) + 1)) =
        natToString (rs.length + 1) := by
      rw [show ((rs.length : Int) + 1) = ((rs.length + 1 : Nat) : Int) from by push_cast; ring]
      exact jsToString_num_ofNat (rs.length + 1)
    rw [if_neg hc, if_neg hc, hjs]
    rfl

theorem eok_bind {α β : Type} (a : α) (f : α → Except JSErr β) :
    (Except.ok a : Except JSErr α) >>= f = f a := rfl

theorem tGet_obj (fs : List (String × JSValue)) (k : String) :
    tGet (.obj fs) k = .ok (lookupField fs k) := rfl

theorem optGet_obj (fs : List (String × JSValue)) (k : String) :
    optGet (.obj fs) k = lookupField fs k := rfl

theorem asArray_arr (xs : List JSValue) : asArray (.arr xs) = .ok xs := rfl

/-- A compound-legal fixture: the allow-listed title with one section and
one subsection. -/
def lhFixtureDoc : JSValue :=
  .obj [("title", .str "Likutei Halakhot"),
    ("schema", .obj [("nodes", .arr [
      .obj [("title", .str "Orach Chaim"),
        ("nodes", .arr [.obj [("title", .str "Morning Conduct")]])]])])]

/-- A topic fixture in the style of the spec: an introduction node and one
part with two sections whose reference lists are `["X.3","X.4","X.5"]` and
`["X.9"]`. -/
def topicFixtureDoc : JSValue :=
  .obj [("title", .str "Chayei Moharan"),
    ("alts", .obj [("Topic", .obj [("nodes", .arr [
      .obj [("title", .str "Introduction")],
      .obj [("title", .str "Part I"), ("nodeType", .str "ArrayMapNode"),
        ("nodes", .arr [
          .obj [("nodeType", .str "ArrayMapNode"), ("title", .str "Sec A"),
            ("refs", .arr [.str "X.3", .str "X.4", .str "X.5"])],
          .obj [("nodeType", .str "ArrayMapNode"), ("title", .str "Sec B"),
            ("refs", .arr [.str "X.9"])]])]])])])]

/-- A schema node that triggers the synthesized numbered children
(`sectionNames` contains `"Torah"`). -/
def torahNode : JSValue :=
  .obj [("nodeType", .str "JaggedArrayNode"), ("default", .bool true),
    ("sectionNames", .arr [.str "Torah"])]

/-- A schema fixture with a single numbered-children section. -/
def schemaTorahDoc : JSValue :=
  .obj [("title", .str "Likutei Moharan"),
    ("schema", .obj [("nodes", .arr [torahNode])])]

/-- A flat fixture: `JaggedArrayNode` schema with unit label `"Chapter"`. -/
def flatFixtureDoc : JSValue :=
  .obj [("title", .str "Sichot HaRan"),
    ("schema", .obj [("nodeType", .str "JaggedArrayNode"),
      ("sectionNames", .arr [.str "Chapter"])])]

/-- An object with none of the recognized structures. -/
def emptyObjDoc : JSValue := .obj []

/-- A document whose `alts.Topic.nodes` is truthy but not an array and
which carries no other recognizable structure. -/
def topicNonArrayDoc : JSValue :=
  .obj [("alts", .obj [("Topic", .obj [("nodes", .num 1)])])]

/-- The claim's reading of dispatch condition 2: the document has an
`alts.Topic.nodes` array.  (The code in fact only tests truthiness; this
definition follows the claim's words for comparison.) -/
def hasTopicNodesArraySpec (indexData : JSValue) : Bool :=
  isArray (optGet (optGet (optGet indexData "alts") "Topic") "nodes")

/-- Claim C1, counterexample: this document has no `alts.Topic.nodes`
array and matches none of the claim's four conditions, so by the claim the
normalizer should return the empty list; the code classifies condition 2 by
truthiness, enters the topic builder, and raises a `TypeError` instead. -/
theorem c1_counterexample :
    isLikuteiTitle topicNonArrayDoc = false ∧
    hasTopicNodesArraySpec topicNonArrayDoc = false ∧
    hasSchemaNodesArray topicNonArrayDoc = false ∧
    isFlatSchema topicNonArrayDoc = false ∧
    generateHierarchicalTOC topicNonArrayDoc = .error .typeError :=
  ⟨rfl, rfl, rfl, rfl, rfl⟩

/-- Claim C1 as amended: the dispatch precedence is exactly as claimed
except that condition 2 tests truthiness of `alts.Topic.nodes`, not
array-ness: (1) allow-listed titles use the compound-legal builder,
(2) else a truthy `alts.Topic.nodes` selects the topic builder, (3) else a
`schema.nodes` array selects the schema builder, (4) else
`schema.nodeType = "JaggedArrayNode"` selects the flat builder, (5) else
the result is the empty list. -/
theorem c1_amended (d : JSValue) :
    (isLikuteiTitle d = true →
      generateHierarchicalTOC d = generateLikuteiHalakhotTOC d) ∧
    (isLikuteiTitle d = false → hasTopicNodes d = true →
      generateHierarchicalTOC d = generateTopicBasedTOC d) ∧
    (isLikuteiTitle d = false → hasTopicNodes d = false →
      hasSchemaNodesArray d = true →
      generateHierarchicalTOC d = generateSchemaBasedTOC d) ∧
    (isLikuteiTitle d = false → hasTopicNodes d = false →
      hasSchemaNodesArray d = false → isFlatSchema d = true →
      generateHierarchicalTOC d = generateSimpleTOC d) ∧
    (isLikuteiTitle d = false → hasTopicNodes d = false →
      hasSchemaNodesArray d = false → isFlatSchema d = false →
      generateHierarchicalTOC d = .ok []) := by
  refine ⟨?_, ?_, ?_, ?_, ?_⟩ <;> intros <;> simp [generateHierarchicalTOC, *]

/-- Witness for the amended claim C1: each arm applied to a concrete
fixture of the corresponding convention. -/
theorem c1_amended_witness :
    generateHierarchicalTOC lhFixtureDoc = generateLikuteiHalakhotTOC lhFixtureDoc ∧
    generateHierarchicalTOC topicFixtureDoc = generateTopicBasedTOC topicFixtureDoc ∧
    generateHierarchicalTOC schemaTorahDoc = generateSchemaBasedTOC schemaTorahDoc ∧
    generateHierarchicalTOC flatFixtureDoc = generateSimpleTOC flatFixtureDoc ∧
    generateHierarchicalTOC emptyObjDoc = .ok [] :=
  ⟨(c1_amended lhFixtureDoc).1 rfl,
   (c1_amended topicFixtureDoc).2.1 rfl rfl,
   (c1_amended schemaTorahDoc).2.2.1 rfl rfl rfl,
   (c1_amended flatFixtureDoc).2.2.2.1 rfl rfl rfl rfl,
   (c1_amended emptyObjDoc).2.2.2.2 rfl rfl rfl rfl⟩

/-- Claim C2, counterexample: on a `null` input document the normalizer
does not raise the invalid-input error; every dispatch access is
optional-chained, so it falls through all four conditions and returns the
empty list. -/
theorem c2_counterexample : generateHierarchicalTOC .null = .ok [] := rfl

/-- Claim C2 as amended: the normalizer never raises on `null` or
primitive input — such input matches no convention and yields the empty
list, exactly as any well-formed object matching none of the four
conventions does. -/
theorem c2_amended (v : JSValue)
    (h : isPrimitive v = true ∨
      (isLikuteiTitle v = false ∧ hasTopicNodes v = false ∧
        hasSchemaNodesArray v = false ∧ isFlatSchema v = false)) :
    generateHierarchicalTOC v = .ok [] := by
  rcases h with h | ⟨h1, h2, h3, h4⟩
  · cases v with
    | undef => rfl
    | null => rfl
    | bool b => rfl
    | num n => rfl
    | str s => rfl
    | arr xs => simp [isPrimitive] at h
    | obj fs => simp [isPrimitive] at h
  · simp [generateHierarchicalTOC, h1, h2, h3, h4]

/-- Witness for the amended claim C2: a primitive input and an unmatched
object input both give the empty list. -/
theorem c2_amended_witness :
    generateHierarchicalTOC (.num 7) = .ok [] ∧
    generateHierarchicalTOC emptyObjDoc = .ok [] :=
  ⟨c2_amended (.num 7) (Or.inl rfl),
   c2_amended emptyObjDoc (Or.inr ⟨rfl, rfl, rfl, rfl⟩)⟩

/-- A compound-legal document in which one subsection node lacks its
`title` field while its siblings are well-formed. -/
def lhMissingTitleDoc : JSValue :=
  .obj [("title", .str "Likutei Halakhot"),
    ("schema", .obj [("nodes", .arr [
      .obj [("title", .str "Orach Chaim"),
        ("nodes", .arr [
          .obj [("title", .str "Morning Conduct")],
          .obj [],
          .obj [("title", .str "Evening Conduct")]])]])])]

/-- Claim C3: the code violates the claimed skip-and-continue behaviour.
In the compound-legal builder `subsection.title.replace(/\s+/g, '_')` is
unguarded, so a subsection node without a `title` raises a `TypeError`
that escapes the normalizer instead of being skipped. -/
theorem c3_missing_field_throws :
    generateHierarchicalTOC lhMissingTitleDoc = .error .typeError := rfl

theorem toggleItem_eq (itemId i t r : String) (l : Nat) (ty : TOCType)
    (c e : Bool) (ch : List TOCItem) (cr : Option String) :
    toggleItem itemId (.mk i t r l ty c e ch cr) =
      if i = itemId then .mk i t r l ty c (!e) ch cr
      else if ch.length > 0 then
        .mk i t r l ty c e (ch.map (toggleItem itemId)) cr
      else .mk i t r l ty c e ch cr := by
  rw [toggleItem]
  by_cases h1 : i = itemId
  · simp [h1]
  · by_cases h2 : ch.length > 0
    · simp only [h1, if_false, h2, if_true]
      exact congrArg (fun z => TOCItem.mk i t r l ty c e z cr)
        (List.attach_map_val ch (toggleItem itemId))
    · simp [h1, h2]

theorem TOCItem.strongInd {P : TOCItem → Prop}
    (h : ∀ i t r l ty c e ch cr, (∀ x ∈ ch, P x) → P (.mk i t r l ty c e ch cr)) :
    ∀ item, P item := by
  have key : ∀ (n : Nat) (item : TOCItem), sizeOf item ≤ n → P item := by
    intro n
    induction n with
    | zero =>
      intro item hle
      cases item with
      | mk i t r l ty c e ch cr => simp [TOCItem.mk.sizeOf_spec] at hle
    | succ n ih =>
      intro item hle
      cases item with
      | mk i t r l ty c e ch cr =>
        refine h i t r l ty c e ch cr ?_
        intro x hx
        refine ih x ?_
        have h1 := List.sizeOf_lt_of_mem hx
        have h2 : sizeOf ch < sizeOf (TOCItem.mk i t r l ty c e ch cr) := by
          simp [TOCItem.mk.sizeOf_spec]
          omega
        omega
  exact fun item => key (sizeOf item) item le_rfl

theorem toggleItem_invol (itemId : String) :
    ∀ item : TOCItem, toggleItem itemId (toggleItem itemId item) = item := by
  refine TOCItem.strongInd ?_
  intro i t r l ty c e ch cr ih
  rw [toggleItem_eq]
  by_cases h1 : i = itemId
  · rw [if_pos h1, toggleItem_eq, if_pos h1, Bool.not_not]
  · rw [if_neg h1]
    by_cases h2 : ch.length > 0
    · rw [if_pos h2, toggleItem_eq, if_neg h1,
        if_pos (by simpa using h2), List.map_map]
      have hmap : ch.map (toggleItem itemId ∘ toggleItem itemId) = ch.map id := by
        apply List.map_congr_left
        intro x hx
        exact ih x hx
      rw [hmap, List.map_id]
    · rw [if_neg h2, toggleItem_eq, if_neg h1, if_neg h2]

/-- Claim C9: toggling the same id twice returns a forest deep-equal to
the original: `toggle(toggle(tree, id), id) = tree`. -/
theorem c9_toggle_involution (itemId : String) (items : List TOCItem) :
    toggleExpansion itemId (toggleExpansion itemId items) = items := by
  unfold toggleExpansion
  rw [List.map_map]
  have hmap : items.map (toggleItem itemId ∘ toggleItem itemId) = items.map id := by
    apply List.map_congr_left
    intro x hx
    exact toggleItem_invol itemId x
  rw [hmap, List.map_id]

set_option maxRecDepth 4000 in
/-- Claim C6, counterexample: the flat builder's total is the build-time
constant 307, not a per-document declared total; with unit label
`"Chapter"` the container has 307 children (not 5) and range label
`"Chapters 1-307"` (not `"Chapters 1-5"`). -/
theorem c6_counterexample :
    (generateHierarchicalTOC flatFixtureDoc).map
        (fun its => its.map (fun t => (t.title, t.children.length, t.chapterRange))) =
      .ok [("All Chapters", 307, some "Chapters 1-307")] := rfl

/-- Claim C6 as amended: for every document dispatched to the flat builder
whose unit label is `"Chapter"` and whose title is the string `T ≠ ""`,
the output is exactly one container titled `"All Chapters"` whose children
are the 307 leaves `"Chapter 1"`..`"Chapter 307"` with references
`T ++ ".1"`..`T ++ ".307"`, and whose range label is `"Chapters 1-307"`
(the total is the code's build-time constant 307, not a document-declared
value). -/
theorem c6_amended (d : JSValue) (T : String)
    (h1 : isLikuteiTitle d = false) (h2 : hasTopicNodes d = false)
    (h3 : hasSchemaNodesArray d = false) (h4 : isFlatSchema d = true)
    (ht : optGet d "title" = .str T) (hT : T ≠ "")
    (hsnt : truthy (optGet (optGet d "schema") "sectionNames") = true)
    (hsn : idx (optGet (optGet d "schema") "sectionNames") 0 = .str "Chapter") :
    generateHierarchicalTOC d =
      .ok [.mk "main-content" "All Chapters" "" 0 .section true false
        ((List.range' 1 307).map (fun n =>
          .mk (mkId "chapter" [n]) ("Chapter " ++ natToString n)
            (T ++ "." ++ natToString n) 1 .chapter false false [] none))
        (some "Chapters 1-307")] := by
  have hd : generateHierarchicalTOC d = generateSimpleTOC d := by
    simp [generateHierarchicalTOC, h1, h2, h3, h4]
  rw [hd]
  cases d with
  | undef => simp [optGet] at ht
  | null => simp [optGet] at ht
  | bool b => simp [optGet, getProp] at ht
  | num n => simp [optGet, getProp] at ht
  | str s => simp [optGet, getProp] at ht
  | arr xs => simp [optGet, getProp] at ht
  | obj fs =>
    have hTitle : lookupField fs "title" = .str T := by
      simpa [optGet, getProp] using ht
    rcases hsch : lookupField fs "schema" with _ | _ | b | n | sch | xs | gs
    case undef => rw [isFlatSchema, optGet_obj, hsch] at h4; simp [optGet, strictEqStr] at h4
    case null => rw [isFlatSchema, optGet_obj, hsch] at h4; simp [optGet, strictEqStr] at h4
    case bool => rw [isFlatSchema, optGet_obj, hsch] at h4; simp [optGet, getProp, strictEqStr] at h4
    case num => rw [isFlatSchema, optGet_obj, hsch] at h4; simp [optGet, getProp, strictEqStr] at h4
    case str => rw [isFlatSchema, optGet_obj, hsch] at h4; simp [optGet, getProp, strictEqStr] at h4
    case arr => rw [isFlatSchema, optGet_obj, hsch] at h4; simp [optGet, getProp, strictEqStr] at h4
    case obj =>
      have hsnt' : truthy (lookupField gs "sectionNames") = true := by
        rw [optGet_obj, hsch] at hsnt
        simpa [optGet, getProp] using hsnt
      have hsn' : idx (lookupField gs "sectionNames") 0 = .str "Chapter" := by
        rw [optGet_obj, hsch] at hsn
        simpa [optGet, getProp] using hsn
      rw [generateSimpleTOC, tGet_obj, hTitle, eok_bind, tGet_obj, hsch, eok_bind,
        tGet_obj, eok_bind]
      rw [show jsOr (.str T) (.str "") = .str T from by simp [jsOr, truthy, hT]]
      rw [hsn', hsnt']
      rw [if_pos (by decide)]
      rfl

set_option maxRecDepth 4000 in
/-- Witness for the amended claim C6: the flat fixture with title
`"Sichot HaRan"` and label `"Chapter"`. -/
theorem c6_amended_witness :
    generateHierarchicalTOC flatFixtureDoc =
      .ok [.mk "main-content" "All Chapters" "" 0 .section true false
        ((List.range' 1 307).map (fun n =>
          .mk (mkId "chapter" [n]) ("Chapter " ++ natToString n)
            ("Sichot HaRan" ++ "." ++ natToString n) 1 .chapter false false [] none))
        (some "Chapters 1-307")] :=
  c6_amended flatFixtureDoc "Sichot HaRan" rfl rfl rfl rfl rfl (by decide) rfl rfl

theorem except_pure_ok {α : Type} {a b : α} :
    (pure a : Except JSErr α) = .ok b ↔ a = b := by
  constructor
  · intro h
    exact Except.ok.inj h
  · intro h
    rw [h]
    rfl

/-- Structural facts that hold of every node the builders produce: a node
with children is collapsible, a leaf (`chapter`) node is never collapsible,
children sit one level below their parent, and levels never exceed 2. -/
def GoodNode (t : TOCItem) : Prop :=
  (t.children ≠ [] → t.isCollapsible = true) ∧
  (t.type = .chapter → t.isCollapsible = false) ∧
  (∀ c ∈ t.children, c.level = t.level + 1) ∧
  t.level ≤ 2

theorem forEachPush_all {g : Nat × JSValue → Except JSErr (List TOCItem)}
    {P : TOCItem → Prop}
    (hg : ∀ p c, g p = .ok c → ∀ t ∈ allItems c, P t) :
    ∀ {ps : List (Nat × JSValue)} {acc res : List TOCItem},
      forEachPush g ps acc = .ok res →
      (∀ t ∈ allItems acc, P t) → ∀ t ∈ allItems res, P t := by
  intro ps acc res h hacc
  obtain ⟨cs, hcs, rfl⟩ := forEachPush_ok_iff.mp h
  rw [allItems_append, allItems_flatten]
  intro t ht
  rcases List.mem_append.mp ht with ht | ht
  · exact hacc t ht
  · obtain ⟨l, hl, htl⟩ := List.mem_flatten.mp ht
    obtain ⟨c, hc, rfl⟩ := List.mem_map.mp hl
    obtain ⟨p, _, hp⟩ := forall₂_mem_right hcs c hc
    exact hg p c hp t htl

theorem forEachPush_roots {g : Nat × JSValue → Except JSErr (List TOCItem)}
    {Q : TOCItem → Prop}
    (hg : ∀ p c, g p = .ok c → ∀ t ∈ c, Q t) :
    ∀ {ps : List (Nat × JSValue)} {acc res : List TOCItem},
      forEachPush g ps acc = .ok res →
      (∀ t ∈ acc, Q t) → ∀ t ∈ res, Q t := by
  intro ps acc res h hacc
  obtain ⟨cs, hcs, rfl⟩ := forEachPush_ok_iff.mp h
  intro t ht
  rcases List.mem_append.mp ht with ht | ht
  · exact hacc t ht
  · obtain ⟨c, hc, htl⟩ := List.mem_flatten.mp ht
    obtain ⟨p, _, hp⟩ := forall₂_mem_right hcs c hc
    exact hg p c hp t htl

theorem topicChapter_good {n s : Nat} {p : Nat × JSValue} {c : List TOCItem}
    (h : topicChapter n s p = .ok c) :
    (∀ t ∈ c, t.level = 2 ∧ t.children = []) ∧ (∀ t ∈ allItems c, GoodNode t) := by
  obtain ⟨i, v⟩ := p
  unfold topicChapter at h
  rw [except_bind_ok] at h
  obtain ⟨num, _, h⟩ := h
  rw [except_pure_ok] at h
  subst h
  constructor
  · intro t ht
    rw [List.mem_singleton] at ht
    subst ht
    exact ⟨rfl, rfl⟩
  · rw [allItems_of_leaves (by
      intro t ht
      rw [List.mem_singleton] at ht
      subst ht
      rfl)]
    intro t ht
    rw [List.mem_singleton] at ht
    subst ht
    exact ⟨by simp [TOCItem.children], by simp [TOCItem.isCollapsible],
      by simp [TOCItem.children], by simp [TOCItem.level]⟩

theorem good_container {i ti r : String} {lv : Nat} {ty : TOCType}
    {ch : List TOCItem} {cr : Option String}
    (hty : ty ≠ TOCType.chapter) (hlv2 : lv ≤ 2)
    (hch_lv : ∀ t ∈ ch, t.level = lv + 1)
    (hch_good : ∀ t ∈ allItems ch, GoodNode t) :
    ∀ t ∈ allItems [TOCItem.mk i ti r lv ty true false ch cr], GoodNode t := by
  intro t ht
  rw [allItems_cons, allItems_nil, List.append_nil] at ht
  rcases List.mem_cons.mp ht with rfl | ht
  · refine ⟨fun _ => rfl, fun hc => absurd hc hty, ?_, hlv2⟩
    intro c' hc'
    simp only [TOCItem.children] at hc'
    simp only [TOCItem.level]
    exact hch_lv c' hc'
  · simp only [TOCItem.children] at ht
    exact hch_good t ht

theorem good_leaf {i ti r : String} {lv : Nat} {ty : TOCType} {cr : Option String}
    (hlv2 : lv ≤ 2) :
    ∀ t ∈ allItems [TOCItem.mk i ti r lv ty false false [] cr], GoodNode t := by
  intro t ht
  rw [allItems_cons, allItems_nil, List.append_nil] at ht
  simp only [TOCItem.children, allItems_nil] at ht
  rcases List.mem_cons.mp ht with rfl | ht
  · exact ⟨by simp [TOCItem.children], fun _ => rfl, by simp [TOCItem.children], hlv2⟩
  · cases ht

theorem topicSection_good {n : Nat} {p : Nat × JSValue} {c : List TOCItem}
    (h : topicSection n p = .ok c) :
    (∀ t ∈ c, t.level = 1) ∧ (∀ t ∈ allItems c, GoodNode t) := by
  obtain ⟨s, sn⟩ := p
  unfold topicSection at h
  rw [except_bind_ok] at h
  obtain ⟨snt, _, h⟩ := h
  by_cases hb : strictEqStr snt "ArrayMapNode" = true
  case neg =>
    rw [if_neg hb, except_pure_ok] at h
    subst h
    exact ⟨by simp, by simp [allItems_nil]⟩
  rw [if_pos hb] at h
  rw [except_bind_ok] at h
  obtain ⟨cleaned, _, h⟩ := h
  rw [except_bind_ok] at h
  obtain ⟨cr, _, h⟩ := h
  have key : ∀ (children : List TOCItem),
      ((∀ t ∈ children, t.level = 2 ∧ t.children = []) ∧
        (∀ t ∈ allItems children, GoodNode t)) →
      c = [TOCItem.mk (mkId "section" [n, s])
        (jsToString (jsOr cleaned (JSValue.str ("Section " ++ natToString (s + 1)))))
        (jsToString (jsOr (getProp sn "wholeRef") (JSValue.str ""))) 1 TOCType.section
        true false children (some cr)] →
      (∀ t ∈ c, t.level = 1) ∧ (∀ t ∈ allItems c, GoodNode t) := by
    intro children hkids hc
    subst hc
    constructor
    · intro t ht
      rw [List.mem_singleton] at ht
      subst ht
      rfl
    · refine good_container (by simp) (by omega) ?_ hkids.2
      intro t ht
      exact (hkids.1 t ht).1
  dsimp only at h
  split at h
  · rw [except_bind_ok] at h
    obtain ⟨rs, _, h⟩ := h
    rw [except_bind_ok] at h
    obtain ⟨children, hch, h⟩ := h
    rw [except_pure_ok] at h
    refine key children ⟨?_, ?_⟩ h.symm
    · exact forEachPush_roots (fun p c hc => (topicChapter_good hc).1) hch (by simp)
    · exact forEachPush_all (fun p c hc => (topicChapter_good hc).2) hch (by simp [allItems_nil])
  · rw [except_bind_ok] at h
    obtain ⟨children, hch, h⟩ := h
    rw [except_pure_ok] at hch
    subst hch
    rw [except_pure_ok] at h
    exact key [] ⟨by simp, by simp [allItems_nil]⟩ h.symm

theorem topicOtherChild_good {n : Nat} {p : Nat × JSValue} {c : List TOCItem}
    (h : topicOtherChild n p = .ok c) :
    (∀ t ∈ c, t.level = 1 ∧ t.children = []) ∧ (∀ t ∈ allItems c, GoodNode t) := by
  obtain ⟨j, v⟩ := p
  unfold topicOtherChild at h
  rw [except_bind_ok] at h
  obtain ⟨cnt, _, h⟩ := h
  split at h
  · rw [except_bind_ok] at h
    obtain ⟨cleaned, _, h⟩ := h
    rw [except_bind_ok] at h
    obtain ⟨cr, _, h⟩ := h
    rw [except_pure_ok] at h
    subst h
    refine ⟨?_, good_leaf (by omega)⟩
    intro t ht
    rw [List.mem_singleton] at ht
    subst ht
    exact ⟨rfl, rfl⟩
  · rw [except_pure_ok] at h
    subst h
    exact ⟨by simp, by simp [allItems_nil]⟩

theorem singleton_level {t0 : TOCItem} (hl : t0.level = L) :
    ∀ t ∈ [t0], t.level = L := by
  intro t ht
  rw [List.mem_singleton] at ht
  subst ht
  exact hl

theorem topicPart_branch_good {n : Nat} {node : JSValue} {c : List TOCItem}
    (h : (if (truthy (getProp node "nodes") && isArray (getProp node "nodes")) = true then do
        let secs ← asArray (getProp node "nodes")
        let y ← forEachPush (topicSection n) (idxFrom 0 secs) []
        pure [TOCItem.mk (mkId "part" [n]) (jsToString (getProp node "title")) "" 0
          TOCType.part true false y none]
      else do
        let y ← (pure [] : Except JSErr (List TOCItem))
        pure [TOCItem.mk (mkId "part" [n]) (jsToString (getProp node "title")) "" 0
          TOCType.part true false y none]) = .ok c) :
    (∀ t ∈ c, t.level = 0) ∧ (∀ t ∈ allItems c, GoodNode t) := by
  split at h
  · rw [except_bind_ok] at h
    obtain ⟨secs, _, h⟩ := h
    rw [except_bind_ok] at h
    obtain ⟨children, hch, h⟩ := h
    rw [except_pure_ok] at h
    subst h
    have h1 := forEachPush_roots (fun p c hc => (topicSection_good hc).1) hch (by simp)
    have h2 := forEachPush_all (fun p c hc => (topicSection_good hc).2) hch
      (by simp [allItems_nil])
    exact ⟨singleton_level rfl, good_container (by simp) (by omega) h1 h2⟩
  · rw [except_bind_ok] at h
    obtain ⟨children, hch, h⟩ := h
    rw [except_pure_ok] at hch
    subst hch
    rw [except_pure_ok] at h
    subst h
    exact ⟨singleton_level rfl,
      good_container (by simp) (by omega) (by simp) (by simp [allItems_nil])⟩

theorem topicOther_branch_good {n : Nat} {node : JSValue} {c : List TOCItem}
    (h : (if (truthy (getProp node "nodes") && isArray (getProp node "nodes") &&
          jsGE (getProp (getProp node "nodes") "length") 1) = true then do
        let cs ← asArray (getProp node "nodes")
        let children ← forEachPush (topicOtherChild n) (idxFrom 0 cs) []
        pure [TOCItem.mk (mkId "other" [n])
          (jsToString (jsOr (getProp node "title")
            (JSValue.str ("Section " ++ natToString (n + 1)))))
          (jsToString (jsOr (getProp node "wholeRef") (JSValue.str ""))) 0
          TOCType.section true false children none]
      else pure []) = .ok c) :
    (∀ t ∈ c, t.level = 0) ∧ (∀ t ∈ allItems c, GoodNode t) := by
  split at h
  · rw [except_bind_ok] at h
    obtain ⟨cs, _, h⟩ := h
    rw [except_bind_ok] at h
    obtain ⟨children, hch, h⟩ := h
    rw [except_pure_ok] at h
    subst h
    have h1 := forEachPush_roots (fun p c hc => (topicOtherChild_good hc).1) hch (by simp)
    have h2 := forEachPush_all (fun p c hc => (topicOtherChild_good hc).2) hch
      (by simp [allItems_nil])
    refine ⟨singleton_level rfl, good_container (by simp) (by omega) ?_ h2⟩
    intro t ht
    exact (h1 t ht).1
  · rw [except_pure_ok] at h
    subst h
    exact ⟨by simp, by simp [allItems_nil]⟩

theorem topicProcessNode_good {title : JSValue} {p : Nat × JSValue} {c : List TOCItem}
    (h : topicProcessNode title p = .ok c) :
    (∀ t ∈ c, t.level = 0) ∧ (∀ t ∈ allItems c, GoodNode t) := by
  obtain ⟨n, node⟩ := p
  unfold topicProcessNode at h
  rw [except_bind_ok] at h
  obtain ⟨nodeType, _, h⟩ := h
  dsimp only at h
  split at h
  case isFalse =>
    rw [except_pure_ok] at h
    subst h
    exact ⟨by simp, by simp [allItems_nil]⟩
  split at h
  case isTrue =>
    rw [except_pure_ok] at h
    subst h
    exact ⟨singleton_level rfl, good_leaf (by omega)⟩
  split at h
  case isTrue =>
    rw [except_bind_ok] at h
    obtain ⟨isPart, _, h⟩ := h
    split at h
    case isTrue => exact topicPart_branch_good h
    case isFalse => exact topicOther_branch_good h
  case isFalse =>
    rw [except_bind_ok] at h
    obtain ⟨isPart, hp, h⟩ := h
    rw [except_pure_ok] at hp
    subst hp
    split at h
    case isTrue hps => exact absurd hps (by simp)
    case isFalse => exact topicOther_branch_good h

theorem generateTopicBasedTOC_good {d : JSValue} {items : List TOCItem}
    (h : generateTopicBasedTOC d = .ok items) :
    (∀ t ∈ items, t.level = 0) ∧ (∀ t ∈ allItems items, GoodNode t) := by
  unfold generateTopicBasedTOC at h
  rw [except_bind_ok] at h
  obtain ⟨t, _, h⟩ := h
  rw [except_bind_ok] at h
  obtain ⟨a, _, h⟩ := h
  rw [except_bind_ok] at h
  obtain ⟨tp, _, h⟩ := h
  rw [except_bind_ok] at h
  obtain ⟨ns, _, h⟩ := h
  rw [except_bind_ok] at h
  obtain ⟨topicNodes, _, h⟩ := h
  exact ⟨forEachPush_roots (fun p c hc => (topicProcessNode_good hc).1) h (by simp),
    forEachPush_all (fun p c hc => (topicProcessNode_good hc).2) h (by simp [allItems_nil])⟩

theorem lhSubsection_good {title nodeTitle : JSValue} {n : Nat} {p : Nat × JSValue}
    {c : List TOCItem} (h : lhSubsection title nodeTitle n p = .ok c) :
    (∀ t ∈ c, t.level = 1 ∧ t.children = []) ∧ (∀ t ∈ allItems c, GoodNode t) := by
  obtain ⟨j, v⟩ := p
  unfold lhSubsection at h
  rw [except_bind_ok] at h
  obtain ⟨secName, _, h⟩ := h
  rw [except_bind_ok] at h
  obtain ⟨subT, _, h⟩ := h
  rw [except_bind_ok] at h
  obtain ⟨subName, _, h⟩ := h
  rw [except_pure_ok] at h
  subst h
  refine ⟨?_, good_leaf (by omega)⟩
  intro t ht
  rw [List.mem_singleton] at ht
  subst ht
  exact ⟨rfl, rfl⟩

theorem lhProcessNode_good {title : JSValue} {p : Nat × JSValue} {c : List TOCItem}
    (h : lhProcessNode title p = .ok c) :
    (∀ t ∈ c, t.level = 0) ∧ (∀ t ∈ allItems c, GoodNode t) := by
  obtain ⟨n, node⟩ := p
  unfold lhProcessNode at h
  rw [except_bind_ok] at h
  obtain ⟨t, _, h⟩ := h
  split at h
  case isTrue =>
    rw [except_pure_ok] at h
    subst h
    exact ⟨singleton_level rfl, good_leaf (by omega)⟩
  dsimp only at h
  split at h
  case isTrue =>
    rw [except_bind_ok] at h
    obtain ⟨subs, _, h⟩ := h
    rw [except_bind_ok] at h
    obtain ⟨children, hch, h⟩ := h
    rw [except_pure_ok] at h
    subst h
    have h1 := forEachPush_roots (fun p c hc => (lhSubsection_good hc).1) hch (by simp)
    have h2 := forEachPush_all (fun p c hc => (lhSubsection_good hc).2) hch
      (by simp [allItems_nil])
    refine ⟨singleton_level rfl, good_container (by simp) (by omega) ?_ h2⟩
    intro x hx
    exact (h1 x hx).1
  case isFalse =>
    rw [except_pure_ok] at h
    subst h
    exact ⟨by simp, by simp [allItems_nil]⟩

theorem generateLikuteiHalakhotTOC_good {d : JSValue} {items : List TOCItem}
    (h : generateLikuteiHalakhotTOC d = .ok items) :
    (∀ t ∈ items, t.level = 0) ∧ (∀ t ∈ allItems items, GoodNode t) := by
  unfold generateLikuteiHalakhotTOC at h
  rw [except_bind_ok] at h
  obtain ⟨t, _, h⟩ := h
  rw [except_bind_ok] at h
  obtain ⟨sc, _, h⟩ := h
  rw [except_bind_ok] at h
  obtain ⟨ns, _, h⟩ := h
  rw [except_bind_ok] at h
  obtain ⟨schemaNodes, _, h⟩ := h
  exact ⟨forEachPush_roots (fun p c hc => (lhProcessNode_good hc).1) h (by simp),
    forEachPush_all (fun p c hc => (lhProcessNode_good hc).2) h (by simp [allItems_nil])⟩

theorem good_of_leaf_shape {t : TOCItem} (hcol : t.isCollapsible = false)
    (hch : t.children = []) (hlv : t.level ≤ 2) : GoodNode t :=
  ⟨fun hc => absurd hch hc, fun _ => hcol, by rw [hch]; simp, hlv⟩

theorem schemaTorahChild (title sn : JSValue) (i : Nat) :
    (TOCItem.mk (mkId "torah" [i]) (jsToString (idx sn 0) ++ " " ++ natToString i)
      (jsToString title ++ "." ++ natToString i) 1 .chapter false false []
      none).children = [] := rfl

theorem mem_allItems_leaves {l : List TOCItem} (hl : ∀ t ∈ l, t.children = [])
    {t : TOCItem} (ht : t ∈ allItems l) : t ∈ l := by
  rw [allItems_of_leaves hl] at ht
  exact ht

theorem pure_section_good {c : List TOCItem} {i ti r : String} {ch : List TOCItem}
    {cr : Option String}
    (hch_lv : ∀ t ∈ ch, t.level = 1) (hch_good : ∀ t ∈ allItems ch, GoodNode t)
    (h : (pure [TOCItem.mk i ti r 0 TOCType.section true false ch cr] :
      Except JSErr (List TOCItem)) = .ok c) :
    (∀ t ∈ c, t.level = 0) ∧ (∀ t ∈ allItems c, GoodNode t) := by
  rw [except_pure_ok] at h
  subst h
  exact ⟨singleton_level rfl, good_container (by simp) (by omega) hch_lv hch_good⟩

theorem schemaProcessNode_good {title : JSValue} {p : Nat × JSValue} {c : List TOCItem}
    (h : schemaProcessNode title p = .ok c) :
    (∀ t ∈ c, t.level = 0) ∧ (∀ t ∈ allItems c, GoodNode t) := by
  obtain ⟨n, node⟩ := p
  unfold schemaProcessNode at h
  rw [except_bind_ok] at h
  obtain ⟨nt, _, h⟩ := h
  split at h
  case isFalse =>
    rw [except_pure_ok] at h
    subst h
    exact ⟨by simp, by simp [allItems_nil]⟩
  dsimp only at h
  split at h
  case isTrue =>
    rw [except_pure_ok] at h
    subst h
    exact ⟨singleton_level rfl, good_leaf (by omega)⟩
  split at h
  case isTrue =>
    have chOK : ∀ (torah : Bool), (∀ t ∈ (if torah = true then
        (List.range' 1 286).map (fun i =>
          TOCItem.mk (mkId "torah" [i])
            (jsToString (idx (getProp node "sectionNames") 0) ++ " " ++ natToString i)
            (jsToString title ++ "." ++ natToString i) 1 .chapter false false [] none)
        else []), t.level = 1) ∧
        (∀ t ∈ allItems (if torah = true then
        (List.range' 1 286).map (fun i =>
          TOCItem.mk (mkId "torah" [i])
            (jsToString (idx (getProp node "sectionNames") 0) ++ " " ++ natToString i)
            (jsToString title ++ "." ++ natToString i) 1 .chapter false false [] none)
        else []), GoodNode t) := by
      intro torah
      constructor
      · split
        · intro t ht
          obtain ⟨i, _, rfl⟩ := List.mem_map.mp ht
          rfl
        · simp
      · split
        · intro t ht
          have ht2 := mem_allItems_leaves (by
            intro y hy
            obtain ⟨i, _, rfl⟩ := List.mem_map.mp hy
            rfl) ht
          obtain ⟨i, _, rfl⟩ := List.mem_map.mp ht2
          exact good_of_leaf_shape rfl rfl (by simp [TOCItem.level])
        · simp [allItems_nil]
    split at h
    case isTrue =>
      rw [except_bind_ok] at h
      obtain ⟨torah, _, h⟩ := h
      exact pure_section_good (chOK torah).1 (chOK torah).2 h
    case isFalse =>
      rw [except_bind_ok] at h
      obtain ⟨torah, hp, h⟩ := h
      rw [except_pure_ok] at hp
      subst hp
      exact pure_section_good (chOK false).1 (chOK false).2 h
  split at h
  case isTrue =>
    rw [except_bind_ok] at h
    obtain ⟨isP2, _, h⟩ := h
    rw [except_pure_ok] at h
    subst h
    refine ⟨singleton_level rfl, ?_⟩
    intro t ht
    rw [allItems_cons, allItems_nil, List.append_nil] at ht
    simp only [TOCItem.children, allItems_nil] at ht
    rcases List.mem_cons.mp ht with rfl | ht
    · exact good_of_leaf_shape rfl rfl (by simp [TOCItem.level])
    · cases ht
  case isFalse =>
    rw [except_pure_ok] at h
    subst h
    exact ⟨by simp, by simp [allItems_nil]⟩

theorem generateSchemaBasedTOC_good {d : JSValue} {items : List TOCItem}
    (h : generateSchemaBasedTOC d = .ok items) :
    (∀ t ∈ items, t.level = 0) ∧ (∀ t ∈ allItems items, GoodNode t) := by
  unfold generateSchemaBasedTOC at h
  rw [except_bind_ok] at h
  obtain ⟨t, _, h⟩ := h
  rw [except_bind_ok] at h
  obtain ⟨sc, _, h⟩ := h
  rw [except_bind_ok] at h
  obtain ⟨ns, _, h⟩ := h
  rw [except_bind_ok] at h
  obtain ⟨schemaNodes, _, h⟩ := h
  exact ⟨forEachPush_roots (fun p c hc => (schemaProcessNode_good hc).1) h (by simp),
    forEachPush_all (fun p c hc => (schemaProcessNode_good hc).2) h (by simp [allItems_nil])⟩

theorem generateSimpleTOC_good {d : JSValue} {items : List TOCItem}
    (h : generateSimpleTOC d = .ok items) :
    (∀ t ∈ items, t.level = 0) ∧ (∀ t ∈ allItems items, GoodNode t) := by
  unfold generateSimpleTOC at h
  rw [except_bind_ok] at h
  obtain ⟨t, _, h⟩ := h
  rw [except_bind_ok] at h
  obtain ⟨sc, _, h⟩ := h
  rw [except_bind_ok] at h
  obtain ⟨sn, _, h⟩ := h
  dsimp only at h
  split at h
  case isFalse =>
    rw [except_pure_ok] at h
    subst h
    exact ⟨by simp, by simp [allItems_nil]⟩
  refine pure_section_good ?_ ?_ h
  · intro x hx
    obtain ⟨i, _, rfl⟩ := List.mem_map.mp hx
    rfl
  · intro x hx
    have hx2 := mem_allItems_leaves (by
      intro y hy
      obtain ⟨i, _, rfl⟩ := List.mem_map.mp hy
      rfl) hx
    obtain ⟨i, _, rfl⟩ := List.mem_map.mp hx2
    exact good_of_leaf_shape rfl rfl (by simp [TOCItem.level])

theorem normalize_good {d : JSValue} {items : List TOCItem}
    (h : generateHierarchicalTOC d = .ok items) :
    (∀ t ∈ items, t.level = 0) ∧ (∀ t ∈ allItems items, GoodNode t) := by
  unfold generateHierarchicalTOC at h
  split at h
  · exact generateLikuteiHalakhotTOC_good h
  split at h
  · exact generateTopicBasedTOC_good h
  split at h
  · exact generateSchemaBasedTOC_good h
  split at h
  · exact generateSimpleTOC_good h
  · obtain rfl : ([] : List TOCItem) = items := Except.ok.inj h
    exact ⟨by simp, by simp [allItems_nil]⟩

theorem mem_allItems_self : ∀ {l : List TOCItem} {t : TOCItem}, t ∈ l → t ∈ allItems l := by
  intro l
  induction l with
  | nil => intro t ht; cases ht
  | cons x xs ih =>
    intro t ht
    rw [allItems_cons]
    rcases List.mem_cons.mp ht with rfl | ht
    · exact List.mem_cons_self _ _
    · exact List.mem_cons_of_mem _ (List.mem_append.mpr (Or.inr (ih ht)))

/-- A document with a single topic node whose title contains `"Part"` but
which has no child nodes: the builder creates the part container with
`isCollapsible = true` and an empty children list. -/
def partNoKidsDoc : JSValue :=
  .obj [("alts", .obj [("Topic", .obj [("nodes", .arr [.obj [("title", .str "Part")]])])])]

/-- Claim C4, counterexample: the claimed equivalence fails in the
expandable-implies-nonempty direction — this input produces a node that is
marked expandable (`isCollapsible = true`) with zero children. -/
theorem c4_counterexample :
    generateHierarchicalTOC partNoKidsDoc =
      .ok [.mk (mkId "part" [0]) "Part" "" 0 .part true false [] none] ∧
    (TOCItem.mk (mkId "part" [0]) "Part" "" 0 .part true false [] none).isCollapsible
      = true ∧
    (TOCItem.mk (mkId "part" [0]) "Part" "" 0 .part true false [] none).children = [] :=
  ⟨rfl, rfl, rfl⟩

/-- Claim C4 as amended: in every forest the normalizer returns, a node
with a non-empty children list is marked expandable, and a non-expandable
node has zero children; the converse direction of the original claim fails,
since an expandable node may have zero children. -/
theorem c4_amended (d : JSValue) (items : List TOCItem)
    (h : generateHierarchicalTOC d = .ok items) :
    ∀ t ∈ allItems items,
      (t.children ≠ [] → t.isCollapsible = true) ∧
      (t.isCollapsible = false → t.children = []) := by
  intro t ht
  have hg := (normalize_good h).2 t ht
  refine ⟨hg.1, ?_⟩
  intro hcol
  by_contra hch
  simp [hg.1 hch] at hcol

def topicCh3 : TOCItem := .mk "chapter-1-0-0" "Chapter 3" "X.3" 2 .chapter false false [] none
def topicCh4 : TOCItem := .mk "chapter-1-0-1" "Chapter 4" "X.4" 2 .chapter false false [] none
def topicCh5 : TOCItem := .mk "chapter-1-0-2" "Chapter 5" "X.5" 2 .chapter false false [] none
def topicCh9 : TOCItem := .mk "chapter-1-1-0" "Chapter 9" "X.9" 2 .chapter false false [] none

def topicSecA : TOCItem :=
  .mk "section-1-0" "Sec A" "" 1 .section true false [topicCh3, topicCh4, topicCh5]
    (some "Chapters 3-5 (3 chapters)")

def topicSecB : TOCItem :=
  .mk "section-1-1" "Sec B" "" 1 .section true false [topicCh9] (some "Chapter 9")

def topicIntroItem : TOCItem :=
  .mk "intro-0" "Introduction" "Chayei Moharan, Introduction" 0 .introduction
    false false [] none

def topicPartItem : TOCItem :=
  .mk "part-1" "Part I" "" 0 .part true false [topicSecA, topicSecB] none

/-- The forest the normalizer produces for `topicFixtureDoc`. -/
def topicFixtureItems : List TOCItem := [topicIntroItem, topicPartItem]

set_option maxRecDepth 4000 in
theorem topicFixture_eval :
    generateHierarchicalTOC topicFixtureDoc = .ok topicFixtureItems := by rfl

theorem allItems_topicFixture :
    allItems topicFixtureItems =
      [topicIntroItem, topicPartItem, topicSecA, topicCh3, topicCh4, topicCh5,
        topicSecB, topicCh9] := by
  simp [topicFixtureItems, topicIntroItem, topicPartItem, topicSecA, topicSecB,
    topicCh3, topicCh4, topicCh5, topicCh9, allItems_cons, allItems_nil,
    allItems_append, TOCItem.children]

/-- Witness for the amended claim C4: the part node of the topic fixture
has children, and the theorem yields that it is marked expandable. -/
theorem c4_amended_witness : topicPartItem.isCollapsible = true :=
  (c4_amended topicFixtureDoc topicFixtureItems topicFixture_eval topicPartItem
    (by rw [allItems_topicFixture]; simp)).1
    (by simp [topicPartItem, TOCItem.children])

/-- Claim C10: in every forest the normalizer returns, each root node has
level 0, each child sits exactly one level below its parent, and no node's
level exceeds 2. -/
theorem c10_levels (d : JSValue) (items : List TOCItem)
    (h : generateHierarchicalTOC d = .ok items) :
    (∀ t ∈ items, t.level = 0) ∧
    (∀ t ∈ allItems items,
      (∀ c ∈ t.children, c.level = t.level + 1) ∧ t.level ≤ 2) := by
  obtain ⟨h0, hg⟩ := normalize_good h
  exact ⟨h0, fun t ht => ⟨(hg t ht).2.2.1, (hg t ht).2.2.2⟩⟩

/-- Witness for claim C10 on the topic fixture: the part root is at level
0, its section child is one level below, and the deepest chapter is at
level 2. -/
theorem c10_levels_witness :
    topicPartItem.level = 0 ∧ topicSecA.level = topicPartItem.level + 1 ∧
      topicCh3.level ≤ 2 :=
  ⟨(c10_levels topicFixtureDoc topicFixtureItems topicFixture_eval).1 topicPartItem
      (by simp [topicFixtureItems]),
   ((c10_levels topicFixtureDoc topicFixtureItems topicFixture_eval).2 topicPartItem
      (by rw [allItems_topicFixture]; simp)).1 topicSecA
      (by simp [topicPartItem, TOCItem.children]),
   ((c10_levels topicFixtureDoc topicFixtureItems topicFixture_eval).2 topicCh3
      (by rw [allItems_topicFixture]; simp)).2⟩

/-- Claim C8: `resolve` yields exactly one action, never both: the
expand/collapse toggle when the node is expandable, otherwise navigation
when the reference is non-empty; and for every leaf (`chapter`) node in a
forest the normalizer returns whose reference is non-empty, it yields
exactly `Navigate(reference)`. -/
theorem c8_resolve (item : TOCItem) (d : JSValue) (items : List TOCItem) :
    (item.isCollapsible = true → resolve item = .toggleExpand item.id) ∧
    (item.isCollapsible = false → item.reference ≠ "" →
      resolve item = .navigate item.reference) ∧
    (∀ i r, ¬(resolve item = .toggleExpand i ∧ resolve item = .navigate r)) ∧
    (generateHierarchicalTOC d = .ok items → item ∈ allItems items →
      item.type = .chapter → item.reference ≠ "" →
      resolve item = .navigate item.reference) := by
  refine ⟨?_, ?_, ?_, ?_⟩
  · intro hc
    rw [resolve, if_pos hc]
  · intro hc hr
    rw [resolve, if_neg (by simp [hc]), if_pos hr]
  · intro i r ⟨h1, h2⟩
    rw [h1] at h2
    cases h2
  · intro h hm hty hr
    have hcol := ((normalize_good h).2 item hm).2.1 hty
    rw [resolve, if_neg (by simp [hcol]), if_pos hr]

/-- Witness for claim C8: on the topic fixture, the expandable part
resolves to the toggle action and the chapter leaf `X.3` resolves to
navigation. -/
theorem c8_resolve_witness :
    resolve topicPartItem = .toggleExpand "part-1" ∧
    resolve topicCh3 = .navigate "X.3" :=
  ⟨(c8_resolve topicPartItem .null []).1 rfl,
   (c8_resolve topicCh3 topicFixtureDoc topicFixtureItems).2.2.2 topicFixture_eval
     (by rw [allItems_topicFixture]; simp) rfl (by simp [topicCh3, TOCItem.reference])⟩

theorem allIds_nil : allIds [] = [] := by simp [allIds, allItems_nil]

theorem mem_allIds {x : String} {l : List TOCItem} :
    x ∈ allIds l ↔ ∃ t ∈ allItems l, t.id = x := by
  simp [allIds, List.mem_map]

theorem allIds_cons (t : TOCItem) (ts : List TOCItem) :
    allIds (t :: ts) = t.id :: (allIds t.children ++ allIds ts) := by
  simp [allIds, allItems_cons]

theorem allIds_singleton {t0 : TOCItem} (h : t0.children = []) :
    allIds [t0] = [t0.id] := by
  rw [allIds_cons, h]
  simp [allIds_nil]

